import Mathlib

/-!
# Terminal portfolio (`app.js`): a shallow embedding

The widgets of `app.js` are modelled as pure state-transition functions.
Browser facilities the script drives (`setTimeout`, `clearTimeout`,
`requestAnimationFrame`, `cancelAnimationFrame`, `Date.now`) are part of the
state: a clock, a list of pending timers and a list of pending animation-frame
handles.  A callback is delivered by an explicit event; an event that names a
callback which is not pending, or a timer whose delay has not yet elapsed, is
never delivered by the browser and leaves the state as it is.
-/

namespace Portafolio

/-! ## Configuration (`CONFIG`) -/

namespace CONFIG

def autoScrollDelay : Nat := 3000
def autoScrollSpeed : Nat := 1
def autoScrollIdleTime : Nat := 2000
def particleCount : Nat := 30

end CONFIG

/-! ## Auto-scroll system (`class AutoScroller`) -/

/-- The three `setTimeout` callbacks of `AutoScroller`: the start-up callback of
`init`, the idle-resume check of `scheduleResume`, and the pause at the bottom
inside `scroll`. -/
inductive TimerKind
  | startup
  | idleResume
  | bottomPause
deriving DecidableEq, Repr

/-- A pending `setTimeout`: its handle, its callback, the clock value when it
was set and its delay. -/
structure Timer where
  id : Nat
  kind : TimerKind
  setAt : Nat
  delay : Nat
deriving DecidableEq, Repr

/-- Earliest clock value at which the timer may fire. -/
def Timer.due (t : Timer) : Nat := t.setAt + t.delay

/-- The fields of an `AutoScroller` instance together with the parts of the
page it reads and writes (the container's scroll geometry, the indicator's
`active` class) and the browser's scheduler. -/
structure AutoScroller where
  isAutoScrolling : Bool
  isPaused : Bool
  scrollSpeed : Nat
  idleTimer : Option Nat
  lastMouseMove : Nat
  animationFrame : Option Nat
  /-- Value of `container.scrollTop`. -/
  scrollTop : Nat
  scrollHeight : Nat
  clientHeight : Nat
  /-- Whether `indicator.classList` contains `active`. -/
  indicatorActive : Bool
  /-- Whether `init` got past the reduced-motion check and attached listeners. -/
  listening : Bool
  /-- Value of `Date.now()`. -/
  now : Nat
  nextTimer : Nat
  nextFrame : Nat
  timers : List Timer
  frames : List Nat
deriving DecidableEq, Repr

namespace AutoScroller

/-- Browser `setTimeout`: registers the callback and returns a fresh handle. -/
def setTimeout (s : AutoScroller) (kind : TimerKind) (delay : Nat) : AutoScroller × Nat :=
  ({ s with
      timers := s.timers ++ [{ id := s.nextTimer, kind := kind, setAt := s.now, delay := delay }]
      nextTimer := s.nextTimer + 1 },
    s.nextTimer)

/-- Browser `clearTimeout`: `null` and unknown handles are ignored. -/
def clearTimeout (s : AutoScroller) (h : Option Nat) : AutoScroller :=
  match h with
  | none => s
  | some i => { s with timers := s.timers.filter (fun t => t.id != i) }

/-- Browser `requestAnimationFrame(scroll)`: returns a fresh non-zero handle. -/
def requestAnimationFrame (s : AutoScroller) : AutoScroller × Nat :=
  ({ s with frames := s.frames ++ [s.nextFrame], nextFrame := s.nextFrame + 1 }, s.nextFrame)

/-- Browser `cancelAnimationFrame`. -/
def cancelAnimationFrame (s : AutoScroller) (h : Nat) : AutoScroller :=
  { s with frames := s.frames.filter (fun f => f != h) }

/-- The difference `container.scrollHeight - container.clientHeight`. -/
def maxScroll (s : AutoScroller) : Int := (s.scrollHeight : Int) - (s.clientHeight : Int)

/-- The closure `scroll` of `startAutoScroll` (one animation-frame step).  The
assignment `scrollTop += scrollSpeed` is taken literally; it is only reached
below `maxScroll`, where for whole offsets and speed 1 the browser's clamping
of `scrollTop` changes nothing. -/
def scroll (s : AutoScroller) : AutoScroller :=
  if !s.isAutoScrolling || s.isPaused then s
  else if (s.scrollTop : Int) < s.maxScroll then
    let s1 := { s with scrollTop := s.scrollTop + s.scrollSpeed }
    let r := s1.requestAnimationFrame
    { r.1 with animationFrame := some r.2 }
  else
    (s.setTimeout TimerKind.bottomPause 2000).1

/-- The callback passed to `setTimeout(..., 2000)` inside `scroll`. -/
def bottomPauseCallback (s : AutoScroller) : AutoScroller :=
  let s1 := { s with scrollTop := 0 }
  let r := s1.requestAnimationFrame
  { r.1 with animationFrame := some r.2 }

/-- Method `startAutoScroll`. -/
def startAutoScroll (s : AutoScroller) : AutoScroller :=
  if s.isPaused then s
  else
    let s1 := { s with isAutoScrolling := true, indicatorActive := true }
    let r := s1.requestAnimationFrame
    { r.1 with animationFrame := some r.2 }

/-- Method `pause`; `if (this.animationFrame)` is false for `null` and for `0`. -/
def pause (s : AutoScroller) : AutoScroller :=
  let s1 := { s with isPaused := true, isAutoScrolling := false, indicatorActive := false }
  match s1.animationFrame with
  | some h => if h != 0 then s1.cancelAnimationFrame h else s1
  | none => s1

/-- The idle-resume check scheduled by `scheduleResume`. -/
def idleResumeCallback (s : AutoScroller) : AutoScroller :=
  let timeSinceLastMove : Int := (s.now : Int) - (s.lastMouseMove : Int)
  if timeSinceLastMove ≥ (CONFIG.autoScrollIdleTime : Int) then
    startAutoScroll { s with isPaused := false }
  else s

/-- Method `scheduleResume`. -/
def scheduleResume (s : AutoScroller) : AutoScroller :=
  let s1 := s.clearTimeout s.idleTimer
  let r := s1.setTimeout TimerKind.idleResume CONFIG.autoScrollIdleTime
  { r.1 with idleTimer := some r.2 }

/-- Method `toggleAutoScroll`. -/
def toggleAutoScroll (s : AutoScroller) : AutoScroller :=
  if s.isAutoScrolling then s.pause
  else startAutoScroll { s with isPaused := false }

/-- Constructor followed by `init`.  `reducedMotion` is the value of
`matchMedia("(prefers-reduced-motion: reduce)").matches`; the remaining
arguments describe the page at construction time. -/
def new (reducedMotion : Bool) (now scrollTop scrollHeight clientHeight : Nat)
    (indicatorActive : Bool) : AutoScroller :=
  let s : AutoScroller :=
    { isAutoScrolling := false
      isPaused := false
      scrollSpeed := CONFIG.autoScrollSpeed
      idleTimer := none
      lastMouseMove := now
      animationFrame := none
      scrollTop := scrollTop
      scrollHeight := scrollHeight
      clientHeight := clientHeight
      indicatorActive := indicatorActive
      listening := false
      now := now
      nextTimer := 1
      nextFrame := 1
      timers := []
      frames := [] }
  if reducedMotion then s
  else { (s.setTimeout TimerKind.startup CONFIG.autoScrollDelay).1 with listening := true }

/-- Runs the callback of a timer that has just been taken off the pending list. -/
def fire (s : AutoScroller) (t : Timer) : AutoScroller :=
  match t.kind with
  | TimerKind.startup => s.startAutoScroll
  | TimerKind.idleResume => s.idleResumeCallback
  | TimerKind.bottomPause => s.bottomPauseCallback

end AutoScroller

/-- What can happen to the page as far as `AutoScroller` is concerned: the
clock advances, the user acts, or the browser delivers a pending callback. -/
inductive Event
  | tick (ms : Nat)
  | mouseenter
  | mouseleave
  | touchstart
  | wheel
  /-- A `scroll` event on the container, with the offset the container has when
  the event is delivered. -/
  | scroll (top : Nat)
  | mousemove
  | keydown (key : String)
  | timer (id : Nat)
  | frame (id : Nat)
deriving DecidableEq, Repr

namespace AutoScroller

/-- One event, dispatched to the listeners registered by `init`. -/
def step (s : AutoScroller) : Event → AutoScroller
  | Event.tick ms => { s with now := s.now + ms }
  | Event.mouseenter => if s.listening then s.pause else s
  | Event.mouseleave => if s.listening then s.scheduleResume else s
  | Event.touchstart => if s.listening then s.pause else s
  | Event.wheel => if s.listening then s.pause else s
  | Event.scroll top =>
    let s1 := { s with scrollTop := top }
    if s1.listening then (if !s1.isAutoScrolling then s1.pause else s1) else s1
  | Event.mousemove =>
    if s.listening then
      let s1 := { s with lastMouseMove := s.now }
      s1.pause.scheduleResume
    else s
  | Event.keydown key =>
    if s.listening then (if key = "Escape" then s.toggleAutoScroll else s) else s
  | Event.timer id =>
    match s.timers.find? (fun t => t.id == id) with
    | some t =>
      if t.due ≤ s.now then
        fire { s with timers := s.timers.filter (fun u => u.id != id) } t
      else s
    | none => s
  | Event.frame id =>
    if id ∈ s.frames then scroll { s with frames := s.frames.filter (fun f => f != id) }
    else s

/-- A whole sequence of events, oldest first. -/
def run (s : AutoScroller) (es : List Event) : AutoScroller := es.foldl step s

/-- Delivers the next pending callback: the oldest requested animation frame
when there is one, otherwise the oldest pending timer, after letting the clock
reach its due time. -/
def deliverNext (s : AutoScroller) : AutoScroller :=
  match s.frames with
  | f :: _ => s.step (Event.frame f)
  | [] =>
    match s.timers with
    | t :: _ => (s.step (Event.tick (t.due - s.now))).step (Event.timer t.id)
    | [] => s

/-- Delivers `k` callbacks in a row, with no user input in between. -/
def deliver : Nat → AutoScroller → AutoScroller
  | 0, s => s
  | k + 1, s => deliver k s.deliverNext

/-- Facts that hold in every state the controller can reach: the two flags are
never both set, the recorded mouse time is not in the future, every pending
idle-resume check is the one remembered in `idleTimer` and was set no earlier
than the last recorded mouse move, and timer handles are distinct. -/
structure Inv (s : AutoScroller) : Prop where
  flags : ¬ (s.isAutoScrolling = true ∧ s.isPaused = true)
  moveLeNow : s.lastMouseMove ≤ s.now
  idle : ∀ t ∈ s.timers, t.kind = TimerKind.idleResume →
    s.idleTimer = some t.id ∧ s.lastMouseMove ≤ t.setAt ∧ t.delay = CONFIG.autoScrollIdleTime
  fresh : ∀ t ∈ s.timers, t.id < s.nextTimer
  nodup : s.timers.Pairwise (fun a b => a.id ≠ b.id)

/-- The controller runs a single scroll loop over a container with `M` pixels
to scroll and stands at position `p` of the cycle: for `p ≤ M` one animation
frame is pending at offset `p`; for `p = M + 1` the pause at the bottom is
pending at offset `M`. -/
def LoopAt (M : Nat) (s : AutoScroller) (p : Nat) : Prop :=
  s.maxScroll = (M : Int) ∧ s.isAutoScrolling = true ∧ s.isPaused = false ∧
  s.scrollSpeed = CONFIG.autoScrollSpeed ∧
  ((p ≤ M ∧ s.scrollTop = p ∧ (∃ f, s.frames = [f]) ∧ s.timers = []) ∨
   (p = M + 1 ∧ s.scrollTop = M ∧ s.frames = [] ∧
      ∃ t, s.timers = [t] ∧ t.kind = TimerKind.bottomPause))

/-- A run without any pause: Escape is pressed 10 ms before the start-up
callback, so that `startAutoScroll` runs twice; frames are then delivered every
16 ms until both loops have met the bottom of a container with 3 pixels to
scroll, one frame apart, and their two 2000 ms timers fire one frame apart. -/
def twoLoopRun : List Event :=
  [ Event.tick 2990, Event.keydown "Escape", Event.tick 10, Event.timer 1,
    Event.tick 16, Event.frame 1, Event.frame 2,
    Event.tick 16, Event.frame 3, Event.frame 4,
    Event.tick 16, Event.frame 5,
    Event.tick 1984, Event.timer 2,
    Event.tick 16, Event.frame 6, Event.timer 3 ]

end AutoScroller

/-- User input, as opposed to the passage of time and the delivery of pending
callbacks. -/
def Event.isInput : Event → Bool
  | Event.tick _ => false
  | Event.timer _ => false
  | Event.frame _ => false
  | _ => true

/-- The two events whose listeners call `scheduleResume`: pointer-leave on the
container and mousemove on the document. -/
def Event.reschedules : Event → Bool
  | Event.mouseleave => true
  | Event.mousemove => true
  | _ => false

/-- The offset the user's own scrolling leaves the container at: the offset
carried by the last `scroll` event, or the starting offset when there is none. -/
def manualScrollTop (top : Nat) : List Event → Nat
  | [] => top
  | Event.scroll t :: es => manualScrollTop t es
  | _ :: es => manualScrollTop top es

/-! ## Matrix rain (`class MatrixRain`)

`Math.random()` is an oracle `rand`: `rand n` is the value of the `n`-th call.
Vertical positions are rationals. -/

/-- Calls made on the 2D context by `draw`. -/
inductive CanvasOp
  | fillRect (x y w h : Nat)
  | fillText (char : Char) (x : Nat) (y : ℚ)
deriving DecidableEq

structure MatrixRain where
  canvasWidth : Nat
  canvasHeight : Nat
  columns : List ℚ
  fontSize : Nat
  chars : String
  /-- Calls made on `ctx`, oldest first. -/
  ops : List CanvasOp
  innerWidth : Nat
  innerHeight : Nat
  /-- Whether `init` registered the `resize` listener. -/
  resizeListener : Bool
  /-- Whether a `requestAnimationFrame(() => this.animate())` is pending. -/
  framePending : Bool
  /-- Number of `Math.random()` calls made so far. -/
  randomCalls : Nat

namespace MatrixRain

/-- Method `resize`. -/
def resize (rand : Nat → ℚ) (m : MatrixRain) : MatrixRain :=
  let columnCount := m.innerWidth / m.fontSize
  { m with
      canvasWidth := m.innerWidth
      canvasHeight := m.innerHeight
      columns := (List.range columnCount).map (fun i => rand (m.randomCalls + i) * m.innerHeight)
      randomCalls := m.randomCalls + columnCount }

/-- Body of the `for` loop of `draw` for column `i` at height `y`. -/
def drawColumn (rand : Nat → ℚ) (m : MatrixRain) (i : Nat) (y : ℚ) : MatrixRain :=
  let char := m.chars.toList.getD (rand m.randomCalls * m.chars.length).floor.toNat ' '
  let m1 := { m with
      ops := m.ops ++ [CanvasOp.fillText char (i * m.fontSize) y]
      randomCalls := m.randomCalls + 1 }
  if y > m1.canvasHeight then
    let m2 := { m1 with randomCalls := m1.randomCalls + 1 }
    let y1 : ℚ := if rand m1.randomCalls > 975 / 1000 then 0 else y
    { m2 with columns := m2.columns.set i (y1 + m2.fontSize) }
  else
    { m1 with columns := m1.columns.set i (y + m1.fontSize) }

/-- Method `draw`. -/
def draw (rand : Nat → ℚ) (m : MatrixRain) : MatrixRain :=
  let m1 := { m with ops := m.ops ++ [CanvasOp.fillRect 0 0 m.canvasWidth m.canvasHeight] }
  (List.range m1.columns.length).foldl
    (fun acc i => drawColumn rand acc i (acc.columns.getD i 0)) m1

/-- Method `animate`. -/
def animate (rand : Nat → ℚ) (m : MatrixRain) : MatrixRain :=
  { draw rand m with framePending := true }

/-- Constructor followed by `init`. -/
def new (rand : Nat → ℚ) (reducedMotion : Bool)
    (canvasWidth canvasHeight innerWidth innerHeight : Nat) : MatrixRain :=
  let m : MatrixRain :=
    { canvasWidth := canvasWidth
      canvasHeight := canvasHeight
      columns := []
      fontSize := 14
      chars := "アイウエオカキクケコサシスセソタチツテトナニヌネノハヒフヘホマミムメモヤユヨラリルレロワヲン0123456789"
      ops := []
      innerWidth := innerWidth
      innerHeight := innerHeight
      resizeListener := false
      framePending := false
      randomCalls := 0 }
  if reducedMotion then m
  else animate rand { resize rand m with resizeListener := true }

end MatrixRain

/-- What can happen to the page as far as `MatrixRain` is concerned. -/
inductive MatrixEvent
  /-- The window is resized to `w` by `h`. -/
  | resize (w h : Nat)
  /-- The browser delivers an animation frame. -/
  | animationFrame

namespace MatrixRain

def step (rand : Nat → ℚ) (m : MatrixRain) : MatrixEvent → MatrixRain
  | MatrixEvent.resize w h =>
    let m1 := { m with innerWidth := w, innerHeight := h }
    if m1.resizeListener then resize rand m1 else m1
  | MatrixEvent.animationFrame =>
    if m.framePending then animate rand { m with framePending := false } else m

def run (rand : Nat → ℚ) (m : MatrixRain) (es : List MatrixEvent) : MatrixRain :=
  es.foldl (step rand) m

end MatrixRain

/-! ## Particle system (`class ParticleSystem`) -/

/-- The inline style given to one particle (`left` in percent, delay and
duration in seconds, size in pixels). -/
structure Particle where
  left : ℚ
  animationDelay : ℚ
  animationDuration : ℚ
  size : ℚ
deriving DecidableEq

structure ParticleSystem where
  /-- Elements appended to the container, oldest first. -/
  containerChildren : List Particle
  particles : List Particle
  randomCalls : Nat

namespace ParticleSystem

/-- Method `createParticle`. -/
def createParticle (rand : Nat → ℚ) (p : ParticleSystem) (_index : Nat) : ParticleSystem :=
  let left := rand p.randomCalls * 100
  let delay := rand (p.randomCalls + 1) * 8
  let duration := 6 + rand (p.randomCalls + 2) * 4
  let size := 2 + rand (p.randomCalls + 3) * 4
  let particle : Particle :=
    { left := left, animationDelay := delay, animationDuration := duration, size := size }
  { containerChildren := p.containerChildren ++ [particle]
    particles := p.particles ++ [particle]
    randomCalls := p.randomCalls + 4 }

/-- Constructor followed by `init`, on a container that already holds
`children`. -/
def new (rand : Nat → ℚ) (reducedMotion : Bool) (children : List Particle) : ParticleSystem :=
  let p : ParticleSystem := { containerChildren := children, particles := [], randomCalls := 0 }
  if reducedMotion then p
  else (List.range CONFIG.particleCount).foldl (createParticle rand) p

end ParticleSystem

/-! ## Mobile navigation (`initMobileNav`) -/

/-- The parts of the page `initMobileNav` reads and writes. -/
structure MobileNav where
  /-- Value of `menuToggle.getAttribute("aria-expanded")`; `none` when absent. -/
  ariaExpanded : Option String
  /-- Value of `navMobile.hidden`. -/
  hidden : Bool
  /-- Whether the toggle control holds the focus. -/
  toggleFocused : Bool
deriving DecidableEq, Repr

inductive NavEvent
  | toggleClick
  | navLinkClick
  | keydown (key : String)
deriving DecidableEq, Repr

namespace MobileNav

/-- The three listeners registered by `initMobileNav`. -/
def step (n : MobileNav) : NavEvent → MobileNav
  | NavEvent.toggleClick =>
    let isExpanded : Bool := n.ariaExpanded == some "true"
    { n with ariaExpanded := some (toString (!isExpanded)), hidden := isExpanded }
  | NavEvent.navLinkClick =>
    if !n.hidden then { n with ariaExpanded := some "false", hidden := true } else n
  | NavEvent.keydown key =>
    if key = "Escape" && !n.hidden then
      { n with ariaExpanded := some "false", hidden := true, toggleFocused := true }
    else n

/-- The attribute says "expanded" exactly when the panel is shown. -/
def Agree (n : MobileNav) : Prop := n.ariaExpanded = some "true" ↔ n.hidden = false

end MobileNav

/-! ## Contact form (`initContactForm`, `showFormResponse`, `isValidEmail`) -/

/-- The class `\s` of a JavaScript regular expression. -/
def isJsWhitespace (c : Char) : Bool :=
  let n := c.toNat
  n == 0x09 || n == 0x0A || n == 0x0B || n == 0x0C || n == 0x0D || n == 0x20 ||
  n == 0xA0 || n == 0x1680 || (0x2000 ≤ n && n ≤ 0x200A) || n == 0x2028 || n == 0x2029 ||
  n == 0x202F || n == 0x205F || n == 0x3000 || n == 0xFEFF

/-- The atoms used by the literal `/^[^\s@]+@[^\s@]+\.[^\s@]+$/`: a literal
character, and a negated class listing `\s` and some characters. -/
inductive Atom
  | lit (c : Char)
  | notSpaceNor (cs : List Char)

def Atom.test : Atom → Char → Bool
  | Atom.lit c, x => x == c
  | Atom.notSpaceNor cs, x => !isJsWhitespace x && !cs.contains x

/-- An atom, taken once or with the quantifier `+`. -/
inductive Item
  | one (a : Atom)
  | plus (a : Atom)

/-- Whether the whole input matches the sequence of items, that is the pattern
`^items$`, trying every way of sharing the input between the quantifiers. -/
def matchItems : List Item → List Char → Bool
  | [], [] => true
  | [], _ :: _ => false
  | _ :: _, [] => false
  | Item.one a :: rest, c :: cs => a.test c && matchItems rest cs
  | Item.plus a :: rest, c :: cs =>
    a.test c && (matchItems (Item.plus a :: rest) cs || matchItems rest cs)

/-- The literal `/^[^\s@]+@[^\s@]+\.[^\s@]+$/`. -/
def emailRegex : List Item :=
  [ Item.plus (Atom.notSpaceNor ['@']), Item.one (Atom.lit '@'),
    Item.plus (Atom.notSpaceNor ['@']), Item.one (Atom.lit '.'),
    Item.plus (Atom.notSpaceNor ['@']) ]

/-- Function `isValidEmail`: `emailRegex.test(email)`.  The input is read
character by character; a character outside the basic plane is two code units
for the script, both of them in `[^\s@]`, so the verdict is the same. -/
def isValidEmail (email : String) : Bool := matchItems emailRegex email.toList

/-- The email rule in the words of the specification: no whitespace, exactly
one `@`, something before it, and after it a `.` with something on either
side. -/
def SpecEmail (s : String) : Prop :=
  (∀ c ∈ s.toList, isJsWhitespace c = false) ∧
  s.toList.count '@' = 1 ∧
  ∃ l d, s.toList = l ++ '@' :: d ∧ l ≠ [] ∧ ∃ a b, d = a ++ '.' :: b ∧ a ≠ [] ∧ b ≠ []

/-- What the submit listener does, in order. -/
inductive Effect
  | preventDefault
  | showFormResponse (message : String) (type : String)
  /-- The suspension `await delay(ms)`. -/
  | delay (ms : Nat)
  /-- The call `contactForm.reset()`. -/
  | reset
deriving DecidableEq, Repr

/-- The template literal of the success status. -/
def successMessage (name email : String) : String :=
  "Message queued successfully. Thank you, " ++ name ++ "! I\x27ll respond to " ++ email ++ " soon."

/-- The `submit` listener of `initContactForm`, applied to the three values
read from the form data. -/
def submitHandler (name email message : String) : List Effect :=
  Effect.preventDefault ::
    (if name = "" || email = "" || message = "" then
      [Effect.showFormResponse "Error: All fields are required." "error"]
    else if !isValidEmail email then
      [Effect.showFormResponse "Error: Invalid email format." "error"]
    else
      [ Effect.showFormResponse "Processing..." "info",
        Effect.delay 1500,
        Effect.showFormResponse (successMessage name email) "success",
        Effect.reset ])

/-- A pending auto-hide callback of `showFormResponse`. -/
structure HideTimer where
  id : Nat
  setAt : Nat
deriving DecidableEq, Repr

/-- Earliest clock value at which the auto-hide callback may run. -/
def HideTimer.due (t : HideTimer) : Nat := t.setAt + 5000

/-- The response panel together with the browser's clock and pending timers. -/
structure FormResponse where
  /-- Text of `.response-text`. -/
  responseText : String
  /-- Colour of `.response-prompt`. -/
  promptColor : String
  hidden : Bool
  now : Nat
  nextTimer : Nat
  timers : List HideTimer
deriving DecidableEq, Repr

inductive FormEvent
  | tick (ms : Nat)
  | showFormResponse (message : String) (type : String)
  | timer (id : Nat)
deriving DecidableEq, Repr

namespace FormResponse

/-- Function `showFormResponse`. -/
def showFormResponse (r : FormResponse) (message : String) (type : String) : FormResponse :=
  let color :=
    if type = "error" then "var(--control-red)"
    else if type = "success" then "var(--control-green)"
    else "var(--accent-pink)"
  let r1 := { r with promptColor := color, responseText := message, hidden := false }
  if type = "success" then
    { r1 with
        timers := r1.timers ++ [{ id := r1.nextTimer, setAt := r1.now }]
        nextTimer := r1.nextTimer + 1 }
  else r1

def step (r : FormResponse) : FormEvent → FormResponse
  | FormEvent.tick ms => { r with now := r.now + ms }
  | FormEvent.showFormResponse message type => r.showFormResponse message type
  | FormEvent.timer id =>
    match r.timers.find? (fun t => t.id == id) with
    | some t =>
      if t.due ≤ r.now then
        { r with timers := r.timers.filter (fun u => u.id != id), hidden := true }
      else r
    | none => r

def run (r : FormResponse) (es : List FormEvent) : FormResponse := es.foldl step r

/-- The panel as the page loads: hidden and empty. -/
def initial : FormResponse :=
  { responseText := "", promptColor := "", hidden := true, now := 0, nextTimer := 1, timers := [] }

end FormResponse


/-! ## Reachable states of the auto-scroll controller -/

namespace AutoScroller

theorem pause_frame_only (s : AutoScroller) :
    ∃ fr, s.pause = { s with isPaused := true, isAutoScrolling := false,
                             indicatorActive := false, frames := fr } := by
  unfold pause
  cases h : s.animationFrame with
  | none => exact ⟨s.frames, by simp [h]⟩
  | some a =>
    by_cases ha : a = 0
    · exact ⟨s.frames, by simp [h, ha]⟩
    · exact ⟨s.frames.filter (fun f => f != a), by simp [h, ha, cancelAnimationFrame]⟩

theorem inv_pause {s : AutoScroller} (h : Inv s) : Inv s.pause := by
  obtain ⟨fr, e⟩ := pause_frame_only s
  rw [e]
  exact ⟨by simp, h.moveLeNow, h.idle, h.fresh, h.nodup⟩

theorem inv_startAutoScroll {s : AutoScroller} (h : Inv s) : Inv s.startAutoScroll := by
  unfold startAutoScroll
  by_cases hp : s.isPaused = true
  · simp only [hp, if_true]
    exact h
  · simp only [hp, requestAnimationFrame]
    exact ⟨by simp, h.moveLeNow, h.idle, h.fresh, h.nodup⟩


theorem inv_unpause {s : AutoScroller} (h : Inv s) : Inv { s with isPaused := false } :=
  ⟨by simp, h.moveLeNow, h.idle, h.fresh, h.nodup⟩

theorem inv_idleResumeCallback {s : AutoScroller} (h : Inv s) : Inv s.idleResumeCallback := by
  unfold idleResumeCallback
  simp only
  split
  · exact inv_startAutoScroll (inv_unpause h)
  · exact h

theorem inv_toggleAutoScroll {s : AutoScroller} (h : Inv s) : Inv s.toggleAutoScroll := by
  unfold toggleAutoScroll
  split
  · exact inv_pause h
  · exact inv_startAutoScroll (inv_unpause h)

theorem inv_bottomPauseCallback {s : AutoScroller} (h : Inv s) : Inv s.bottomPauseCallback := by
  unfold bottomPauseCallback
  simp only [requestAnimationFrame]
  exact ⟨h.flags, h.moveLeNow, h.idle, h.fresh, h.nodup⟩

theorem inv_setTimeout {s : AutoScroller} (h : Inv s) (k : TimerKind) (d : Nat)
    (hk : k ≠ TimerKind.idleResume) : Inv (s.setTimeout k d).1 := by
  unfold setTimeout
  refine ⟨h.flags, h.moveLeNow, ?_, ?_, ?_⟩
  · intro t ht hkind
    simp only [List.mem_append, List.mem_singleton] at ht
    rcases ht with ht | rfl
    · exact h.idle t ht hkind
    · exact absurd hkind hk
  · intro t ht
    simp only [List.mem_append, List.mem_singleton] at ht
    rcases ht with ht | rfl
    · exact Nat.lt_succ_of_lt (h.fresh t ht)
    · exact Nat.lt_succ_self _
  · simp only [List.pairwise_append, List.pairwise_singleton, List.mem_singleton]
    refine ⟨h.nodup, trivial, ?_⟩
    intro a ha b hb
    subst hb
    exact Nat.ne_of_lt (h.fresh a ha)

theorem inv_scroll {s : AutoScroller} (h : Inv s) : Inv s.scroll := by
  unfold scroll
  split
  · exact h
  · split
    · simp only [requestAnimationFrame]
      exact ⟨h.flags, h.moveLeNow, h.idle, h.fresh, h.nodup⟩
    · exact inv_setTimeout h _ _ (by decide)

theorem inv_scheduleResume_of {s : AutoScroller}
    (hflags : ¬ (s.isAutoScrolling = true ∧ s.isPaused = true))
    (hmove : s.lastMouseMove ≤ s.now)
    (hidle : ∀ t ∈ s.timers, t.kind = TimerKind.idleResume → s.idleTimer = some t.id)
    (hfresh : ∀ t ∈ s.timers, t.id < s.nextTimer)
    (hnodup : s.timers.Pairwise (fun a b => a.id ≠ b.id)) : Inv s.scheduleResume := by
  have hclear : ∀ t ∈ (s.clearTimeout s.idleTimer).timers, t ∈ s.timers ∧ t.kind ≠ TimerKind.idleResume := by
    intro t ht
    unfold clearTimeout at ht
    cases hi : s.idleTimer with
    | none =>
      simp only [hi] at ht
      refine ⟨ht, fun hk => ?_⟩
      have := hidle t ht hk
      simp [hi] at this
    | some i =>
      simp only [hi, List.mem_filter, bne_iff_ne, ne_eq] at ht
      refine ⟨ht.1, fun hk => ?_⟩
      have := hidle t ht.1 hk
      rw [hi] at this
      exact ht.2 (Option.some.inj this).symm
  have hsub : (s.clearTimeout s.idleTimer).timers.Sublist s.timers := by
    unfold clearTimeout
    cases s.idleTimer with
    | none => exact List.Sublist.refl _
    | some i => exact List.filter_sublist _
  have hrest : (s.clearTimeout s.idleTimer).nextTimer = s.nextTimer ∧
      (s.clearTimeout s.idleTimer).now = s.now ∧
      (s.clearTimeout s.idleTimer).lastMouseMove = s.lastMouseMove ∧
      (s.clearTimeout s.idleTimer).isPaused = s.isPaused ∧
      (s.clearTimeout s.idleTimer).isAutoScrolling = s.isAutoScrolling := by
    unfold clearTimeout
    cases s.idleTimer <;> simp
  obtain ⟨h1, h2, h3, h4, h5⟩ := hrest
  unfold scheduleResume setTimeout
  refine ⟨?_, ?_, ?_, ?_, ?_⟩
  · simpa [h4, h5] using hflags
  · simpa [h2, h3] using hmove
  · intro t ht hk
    simp only [List.mem_append, List.mem_singleton] at ht
    rcases ht with ht | rfl
    · exact absurd hk (hclear t ht).2
    · simp only [h1, h2, h3]
      exact ⟨trivial, hmove, trivial⟩
  · intro t ht
    simp only [List.mem_append, List.mem_singleton] at ht
    simp only [h1]
    rcases ht with ht | rfl
    · exact Nat.lt_succ_of_lt (hfresh t (hclear t ht).1)
    · show (s.clearTimeout s.idleTimer).nextTimer < s.nextTimer + 1
      rw [h1]
      exact Nat.lt_succ_self _
  · simp only [List.pairwise_append, List.pairwise_singleton, List.mem_singleton]
    refine ⟨hnodup.sublist hsub, trivial, ?_⟩
    intro a ha b hb
    subst hb
    simp only [h1]
    exact Nat.ne_of_lt (hfresh a (hclear a ha).1)


theorem inv_scheduleResume {s : AutoScroller} (h : Inv s) : Inv s.scheduleResume :=
  inv_scheduleResume_of h.flags h.moveLeNow (fun t ht hk => (h.idle t ht hk).1) h.fresh h.nodup

theorem inv_dropTimer {s : AutoScroller} (h : Inv s) (id : Nat) :
    Inv { s with timers := s.timers.filter (fun u => u.id != id) } :=
  ⟨h.flags, h.moveLeNow,
    fun t ht hk => h.idle t (List.mem_of_mem_filter ht) hk,
    fun t ht => h.fresh t (List.mem_of_mem_filter ht),
    h.nodup.sublist (List.filter_sublist _)⟩

theorem inv_fire {s : AutoScroller} (h : Inv s) (t : Timer) : Inv (s.fire t) := by
  unfold fire
  cases t.kind
  · exact inv_startAutoScroll h
  · exact inv_idleResumeCallback h
  · exact inv_bottomPauseCallback h

theorem inv_step {s : AutoScroller} (h : Inv s) (e : Event) : Inv (s.step e) := by
  cases e with
  | tick ms =>
    exact ⟨h.flags, Nat.le_trans h.moveLeNow (Nat.le_add_right _ _), h.idle, h.fresh, h.nodup⟩
  | mouseenter => simp only [step]; split; exact inv_pause h; exact h
  | mouseleave => simp only [step]; split; exact inv_scheduleResume h; exact h
  | touchstart => simp only [step]; split; exact inv_pause h; exact h
  | wheel => simp only [step]; split; exact inv_pause h; exact h
  | scroll top =>
    have h1 : Inv { s with scrollTop := top } := ⟨h.flags, h.moveLeNow, h.idle, h.fresh, h.nodup⟩
    simp only [step]
    split
    · split
      · exact inv_pause h1
      · exact h1
    · exact h1
  | mousemove =>
    simp only [step]
    split
    · obtain ⟨fr, e⟩ := pause_frame_only { s with lastMouseMove := s.now }
      rw [e]
      exact inv_scheduleResume_of (by simp) (Nat.le_refl _)
        (fun t ht hk => (h.idle t ht hk).1) h.fresh h.nodup
    · exact h
  | keydown key =>
    simp only [step]
    split
    · split
      · exact inv_toggleAutoScroll h
      · exact h
    · exact h
  | timer id =>
    simp only [step]
    split
    · split
      · exact inv_fire (inv_dropTimer h id) _
      · exact h
    · exact h
  | frame id =>
    simp only [step]
    split
    · exact inv_scroll ⟨h.flags, h.moveLeNow, h.idle, h.fresh, h.nodup⟩
    · exact h


theorem new_motion (now top sh ch : Nat) (ind : Bool) :
    new false now top sh ch ind =
      { isAutoScrolling := false, isPaused := false, scrollSpeed := CONFIG.autoScrollSpeed,
        idleTimer := none, lastMouseMove := now, animationFrame := none, scrollTop := top,
        scrollHeight := sh, clientHeight := ch, indicatorActive := ind, listening := true,
        now := now, nextTimer := 2, nextFrame := 1,
        timers := [{ id := 1, kind := TimerKind.startup, setAt := now,
                     delay := CONFIG.autoScrollDelay }],
        frames := [] } := rfl

theorem new_reduced (now top sh ch : Nat) (ind : Bool) :
    new true now top sh ch ind =
      { isAutoScrolling := false, isPaused := false, scrollSpeed := CONFIG.autoScrollSpeed,
        idleTimer := none, lastMouseMove := now, animationFrame := none, scrollTop := top,
        scrollHeight := sh, clientHeight := ch, indicatorActive := ind, listening := false,
        now := now, nextTimer := 1, nextFrame := 1, timers := [], frames := [] } := rfl

theorem inv_new (reducedMotion : Bool) (now top sh ch : Nat) (ind : Bool) :
    Inv (new reducedMotion now top sh ch ind) := by
  cases reducedMotion
  · rw [new_motion]
    refine ⟨by simp, Nat.le_refl _, ?_, ?_, ?_⟩
    · intro t ht hk
      simp only [List.mem_singleton] at ht
      subst ht
      exact TimerKind.noConfusion hk
    · intro t ht
      simp only [List.mem_singleton] at ht
      subst ht
      exact Nat.lt_succ_self _
    · simp
  · rw [new_reduced]
    exact ⟨by simp, Nat.le_refl _, by simp, by simp, by simp⟩

theorem inv_run {s : AutoScroller} (h : Inv s) (es : List Event) : Inv (s.run es) := by
  induction es generalizing s with
  | nil => exact h
  | cons e es ih => exact ih (inv_step h e)

theorem startAutoScroll_timers (s : AutoScroller) : s.startAutoScroll.timers = s.timers := by
  unfold startAutoScroll; split <;> rfl

theorem idleResumeCallback_timers (s : AutoScroller) :
    s.idleResumeCallback.timers = s.timers := by
  unfold idleResumeCallback
  simp only
  split
  · rw [startAutoScroll_timers]
  · rfl

theorem fire_timers (s : AutoScroller) (t : Timer) : (s.fire t).timers = s.timers := by
  unfold fire
  cases t.kind
  · exact startAutoScroll_timers s
  · exact idleResumeCallback_timers s
  · rfl

theorem scroll_timers_mem (s : AutoScroller) (t : Timer) (h : t ∈ s.timers) :
    t ∈ s.scroll.timers := by
  unfold scroll
  split
  · exact h
  · split
    · exact h
    · exact List.mem_append_left _ h

theorem find_timer_of_mem {l : List Timer} (hl : l.Pairwise (fun a b => a.id ≠ b.id))
    {t : Timer} (ht : t ∈ l) : l.find? (fun u => u.id == t.id) = some t := by
  induction l with
  | nil => cases ht
  | cons a l ih =>
    rw [List.pairwise_cons] at hl
    rcases List.mem_cons.mp ht with rfl | hmem
    · simp
    · have hne : a.id ≠ t.id := hl.1 t hmem
      rw [List.find?_cons_of_neg _ (by simpa using hne)]
      exact ih hl.2 hmem

/-- Delivery of a pending timer: nothing before its due time, afterwards the
timer leaves the pending list and its callback runs. -/
theorem step_timer_of_mem {s : AutoScroller} (h : Inv s) {t : Timer} (ht : t ∈ s.timers) :
    s.step (Event.timer t.id) =
      if t.due ≤ s.now then
        fire { s with timers := s.timers.filter (fun u => u.id != t.id) } t
      else s := by
  simp only [step, find_timer_of_mem h.nodup ht]

/-- Whenever a pending idle-resume check is delivered in a reachable state, the
test on `lastMouseMove` passes and scrolling starts. -/
theorem idle_fire_resumes {s : AutoScroller} (h : Inv s) {t : Timer} (ht : t ∈ s.timers)
    (hk : t.kind = TimerKind.idleResume) (hdue : t.due ≤ s.now) :
    (s.step (Event.timer t.id)).isPaused = false ∧
    (s.step (Event.timer t.id)).isAutoScrolling = true ∧
    (s.step (Event.timer t.id)).indicatorActive = true ∧
    ∃ f, (s.step (Event.timer t.id)).animationFrame = some f ∧
      f ∈ (s.step (Event.timer t.id)).frames := by
  obtain ⟨_, hmove, hdelay⟩ := h.idle t ht hk
  have hcheck : ((s.now : Int) - (s.lastMouseMove : Int) ≥ (CONFIG.autoScrollIdleTime : Int)) := by
    have : s.lastMouseMove + CONFIG.autoScrollIdleTime ≤ s.now := by
      unfold Timer.due at hdue
      rw [hdelay] at hdue
      exact Nat.le_trans (Nat.add_le_add_right hmove _) hdue
    omega
  rw [step_timer_of_mem h ht, if_pos hdue]
  simp only [fire, hk, idleResumeCallback, hcheck, if_true, startAutoScroll, requestAnimationFrame]
  simp

theorem pause_timers (s : AutoScroller) : s.pause.timers = s.timers := by
  obtain ⟨fr, e⟩ := pause_frame_only s
  rw [e]

theorem toggleAutoScroll_timers (s : AutoScroller) : s.toggleAutoScroll.timers = s.timers := by
  unfold toggleAutoScroll
  split
  · rw [pause_timers]
  · rw [startAutoScroll_timers]

theorem reschedules_of_not_input {e : Event} (he : e.isInput = false) :
    e.reschedules = false := by
  cases e <;> first | rfl | cases he

/-- A pending timer stays pending through every event except its own delivery
and the two events that call `scheduleResume`. -/
theorem mem_timers_step {s : AutoScroller} {t : Timer} (ht : t ∈ s.timers) (e : Event)
    (he : e.reschedules = false) (hne : e ≠ Event.timer t.id) : t ∈ (s.step e).timers := by
  cases e with
  | tick ms => exact ht
  | timer id =>
    have hid : t.id ≠ id := fun h => hne (by rw [h])
    simp only [step]
    split
    · split
      · rw [fire_timers]
        exact List.mem_filter.mpr ⟨ht, by simpa using hid⟩
      · exact ht
    · exact ht
  | frame id =>
    simp only [step]
    split
    · exact scroll_timers_mem _ t ht
    · exact ht
  | mouseenter => simp only [step]; split; rw [pause_timers]; exact ht; exact ht
  | mouseleave => cases he
  | touchstart => simp only [step]; split; rw [pause_timers]; exact ht; exact ht
  | wheel => simp only [step]; split; rw [pause_timers]; exact ht; exact ht
  | scroll top =>
    simp only [step]
    split
    · split
      · rw [pause_timers]; exact ht
      · exact ht
    · exact ht
  | mousemove => cases he
  | keydown key =>
    simp only [step]
    split
    · split
      · rw [toggleAutoScroll_timers]; exact ht
      · exact ht
    · exact ht

theorem mem_timers_run {s : AutoScroller} {t : Timer} (ht : t ∈ s.timers) (es : List Event)
    (he : ∀ e ∈ es, e.reschedules = false) (hne : Event.timer t.id ∉ es) :
    t ∈ (s.run es).timers := by
  induction es generalizing s with
  | nil => exact ht
  | cons e es ih =>
    have h1 : t ∈ (s.step e).timers :=
      mem_timers_step ht e (he e (List.mem_cons_self _ _))
        (fun h => hne (by rw [h]; exact List.mem_cons_self _ _))
    exact ih h1 (fun x hx => he x (List.mem_cons_of_mem _ hx))
      (fun hx => hne (List.mem_cons_of_mem _ hx))

/-- Method `scheduleResume` leaves exactly the new check remembered and pending,
set at the current clock value. -/
theorem scheduleResume_pending (s : AutoScroller) :
    ∃ t ∈ s.scheduleResume.timers, s.scheduleResume.idleTimer = some t.id ∧
      t.kind = TimerKind.idleResume ∧ t.setAt = s.now ∧
      t.delay = CONFIG.autoScrollIdleTime ∧ s.scheduleResume.now = s.now := by
  have hnow : (s.clearTimeout s.idleTimer).now = s.now := by
    unfold clearTimeout
    cases s.idleTimer <;> rfl
  refine ⟨{ id := (s.clearTimeout s.idleTimer).nextTimer, kind := TimerKind.idleResume,
            setAt := (s.clearTimeout s.idleTimer).now, delay := CONFIG.autoScrollIdleTime },
          ?_, rfl, rfl, hnow, rfl, hnow⟩
  simp [scheduleResume, setTimeout]


theorem startAutoScroll_of_paused {s : AutoScroller} (h : s.isPaused = true) :
    s.startAutoScroll = s := by
  unfold startAutoScroll
  rw [if_pos h]

theorem scroll_of_paused {s : AutoScroller} (h : s.isPaused = true) : s.scroll = s := by
  unfold scroll
  rw [if_pos (by simp [h])]

/-- While the controller is paused and no idle-resume check is pending, the
passage of time and the delivery of callbacks leave it paused. -/
theorem paused_step {s : AutoScroller}
    (hp : s.isPaused = true ∧ s.isAutoScrolling = false ∧
      ∀ t ∈ s.timers, t.kind ≠ TimerKind.idleResume)
    (e : Event) (he : e.isInput = false) :
    (s.step e).isPaused = true ∧ (s.step e).isAutoScrolling = false ∧
      ∀ t ∈ (s.step e).timers, t.kind ≠ TimerKind.idleResume := by
  obtain ⟨h1, h2, h3⟩ := hp
  cases e with
  | tick ms => exact ⟨h1, h2, h3⟩
  | timer id =>
    simp only [step]
    split
    · rename_i t hfind
      have htm : t ∈ s.timers := List.mem_of_find?_eq_some hfind
      have h3f : ∀ u ∈ s.timers.filter (fun u => u.id != id), u.kind ≠ TimerKind.idleResume :=
        fun u hu => h3 u (List.mem_of_mem_filter hu)
      split
      · unfold fire
        cases hk : t.kind with
        | startup =>
          simp only
          rw [startAutoScroll_of_paused (by exact h1)]
          exact ⟨h1, h2, h3f⟩
        | idleResume => exact absurd hk (h3 t htm)
        | bottomPause => exact ⟨h1, h2, h3f⟩
      · exact ⟨h1, h2, h3⟩
    · exact ⟨h1, h2, h3⟩
  | frame id =>
    simp only [step]
    split
    · rw [scroll_of_paused (by exact h1)]
      exact ⟨h1, h2, h3⟩
    · exact ⟨h1, h2, h3⟩
  | mouseenter => cases he
  | mouseleave => cases he
  | touchstart => cases he
  | wheel => cases he
  | scroll top => cases he
  | mousemove => cases he
  | keydown key => cases he

theorem paused_run {s : AutoScroller}
    (hp : s.isPaused = true ∧ s.isAutoScrolling = false ∧
      ∀ t ∈ s.timers, t.kind ≠ TimerKind.idleResume)
    (es : List Event) (he : ∀ e ∈ es, e.isInput = false) :
    (s.run es).isPaused = true ∧ (s.run es).isAutoScrolling = false := by
  induction es generalizing s with
  | nil => exact ⟨hp.1, hp.2.1⟩
  | cons e es ih =>
    exact ih (paused_step hp e (he e (List.mem_cons_self _ _)))
      (fun x hx => he x (List.mem_cons_of_mem _ hx))

theorem pause_listening (s : AutoScroller) : s.pause.listening = s.listening := by
  obtain ⟨fr, e⟩ := pause_frame_only s
  rw [e]

theorem startAutoScroll_listening (s : AutoScroller) :
    s.startAutoScroll.listening = s.listening := by
  unfold startAutoScroll; split <;> rfl

theorem scheduleResume_listening (s : AutoScroller) :
    s.scheduleResume.listening = s.listening := by
  unfold scheduleResume setTimeout clearTimeout
  cases s.idleTimer <;> rfl

theorem idleResumeCallback_listening (s : AutoScroller) :
    s.idleResumeCallback.listening = s.listening := by
  unfold idleResumeCallback
  simp only
  split
  · rw [startAutoScroll_listening]
  · rfl

theorem toggleAutoScroll_listening (s : AutoScroller) :
    s.toggleAutoScroll.listening = s.listening := by
  unfold toggleAutoScroll
  split
  · rw [pause_listening]
  · rw [startAutoScroll_listening]

theorem scroll_listening (s : AutoScroller) : s.scroll.listening = s.listening := by
  unfold scroll
  split
  · rfl
  · split <;> rfl

theorem fire_listening (s : AutoScroller) (t : Timer) : (s.fire t).listening = s.listening := by
  unfold fire
  cases t.kind
  · exact startAutoScroll_listening s
  · exact idleResumeCallback_listening s
  · rfl

theorem step_listening (s : AutoScroller) (e : Event) : (s.step e).listening = s.listening := by
  cases e with
  | tick ms => rfl
  | mouseenter => simp only [step]; split; exact pause_listening s; rfl
  | mouseleave => simp only [step]; split; exact scheduleResume_listening s; rfl
  | touchstart => simp only [step]; split; exact pause_listening s; rfl
  | wheel => simp only [step]; split; exact pause_listening s; rfl
  | scroll top =>
    simp only [step]
    split
    · split
      · rw [pause_listening]
      · rfl
    · rfl
  | mousemove =>
    simp only [step]
    split
    · rw [scheduleResume_listening, pause_listening]
    · rfl
  | keydown key =>
    simp only [step]
    split
    · split
      · rw [toggleAutoScroll_listening]
      · rfl
    · rfl
  | timer id =>
    simp only [step]
    split
    · split
      · rw [fire_listening]
      · rfl
    · rfl
  | frame id =>
    simp only [step]
    split
    · rw [scroll_listening]
    · rfl

theorem run_listening (s : AutoScroller) (es : List Event) :
    (s.run es).listening = s.listening := by
  induction es generalizing s with
  | nil => rfl
  | cons e es ih => exact (ih (s.step e)).trans (step_listening s e)

/-- At most one idle-resume check is pending in any state satisfying the
invariant: `scheduleResume` clears the remembered one before setting the next. -/
theorem idle_timers_at_most_one {s : AutoScroller} (h : Inv s) :
    (s.timers.filter (fun t => t.kind == TimerKind.idleResume)).length ≤ 1 := by
  have hp : (s.timers.filter (fun t => t.kind == TimerKind.idleResume)).Pairwise
      (fun a b => a.id ≠ b.id) := h.nodup.sublist (List.filter_sublist _)
  have hm : ∀ t ∈ s.timers.filter (fun t => t.kind == TimerKind.idleResume),
      s.idleTimer = some t.id := by
    intro t ht
    rw [List.mem_filter] at ht
    exact (h.idle t ht.1 (by simpa using ht.2)).1
  match hl : s.timers.filter (fun t => t.kind == TimerKind.idleResume) with
  | [] => rw [hl]; exact Nat.zero_le _
  | [_] => rw [hl]; exact Nat.le_refl _
  | a :: b :: rest =>
    rw [hl] at hp hm
    have ha := hm a (by simp)
    have hb := hm b (by simp)
    have hab : a.id = b.id := Option.some.inj (ha.symm.trans hb)
    exact absurd hab (List.rel_of_pairwise_cons hp (by simp))

theorem loopAt_scrollTop {M : Nat} {s : AutoScroller} {p : Nat} (h : LoopAt M s p) :
    s.scrollTop = min p M := by
  obtain ⟨_, _, _, _, h | h⟩ := h
  · rw [h.2.1, Nat.min_eq_left h.1]
  · rw [h.2.1, h.1, Nat.min_eq_right (Nat.le_succ M)]

theorem scroll_advance {s : AutoScroller} (hrun : s.isAutoScrolling = true)
    (hp : s.isPaused = false) (hlt : (s.scrollTop : Int) < s.maxScroll) :
    s.scroll =
      { s with scrollTop := s.scrollTop + s.scrollSpeed, frames := s.frames ++ [s.nextFrame],
               nextFrame := s.nextFrame + 1, animationFrame := some s.nextFrame } := by
  unfold scroll
  rw [if_neg (by simp [hrun, hp]), if_pos hlt]
  rfl

theorem scroll_bottom {s : AutoScroller} (hrun : s.isAutoScrolling = true)
    (hp : s.isPaused = false) (hge : ¬ (s.scrollTop : Int) < s.maxScroll) :
    s.scroll =
      { s with timers := s.timers ++ [{ id := s.nextTimer, kind := TimerKind.bottomPause,
                                        setAt := s.now, delay := 2000 }],
               nextTimer := s.nextTimer + 1 } := by
  unfold scroll
  rw [if_neg (by simp [hrun, hp]), if_neg hge]
  rfl

theorem step_frame_single {s : AutoScroller} {f : Nat} (hf : s.frames = [f]) :
    s.step (Event.frame f) = scroll { s with frames := [] } := by
  simp [step, hf]

theorem step_timer_single {s : AutoScroller} {t : Timer} (ht : s.timers = [t])
    (hdue : t.due ≤ s.now) :
    s.step (Event.timer t.id) = fire { s with timers := [] } t := by
  simp [step, ht, hdue]

theorem step_timer_single_early {s : AutoScroller} {t : Timer} (ht : s.timers = [t])
    (hdue : s.now < t.due) : s.step (Event.timer t.id) = s := by
  simp [step, ht, Nat.not_le.mpr hdue]

theorem loopAt_deliverNext {M : Nat} {s : AutoScroller} {p : Nat} (h : LoopAt M s p) :
    LoopAt M s.deliverNext ((p + 1) % (M + 2)) := by
  obtain ⟨hmax, hrun, hp, hspeed, h | h⟩ := h
  · obtain ⟨hpM, htop, ⟨f, hf⟩, ht⟩ := h
    have hstep : s.deliverNext = scroll { s with frames := [] } := by
      rw [← step_frame_single hf]
      simp [deliverNext, hf]
    rw [hstep]
    by_cases hlt : p < M
    · have hcond : ((s.scrollTop : Int) < s.maxScroll) := by rw [hmax, htop]; exact_mod_cast hlt
      have hmod : (p + 1) % (M + 2) = p + 1 := Nat.mod_eq_of_lt (by omega)
      rw [hmod, scroll_advance (s := { s with frames := [] }) hrun hp hcond]
      refine ⟨hmax, hrun, hp, hspeed, Or.inl ⟨by omega, ?_, ⟨s.nextFrame, rfl⟩, ht⟩⟩
      show s.scrollTop + s.scrollSpeed = p + 1
      rw [htop, hspeed]; rfl
    · have hpeq : p = M := by omega
      have hcond : ¬ ((s.scrollTop : Int) < s.maxScroll) := by rw [hmax, htop, hpeq]; simp
      have hmod : (p + 1) % (M + 2) = M + 1 := by rw [hpeq]; exact Nat.mod_eq_of_lt (by omega)
      rw [hmod, scroll_bottom (s := { s with frames := [] }) hrun hp hcond]
      refine ⟨hmax, hrun, hp, hspeed, Or.inr ⟨rfl, by rw [← hpeq]; exact htop, rfl, ?_⟩⟩
      exact ⟨_, by show s.timers ++ _ = _; rw [ht]; rfl, rfl⟩
  · obtain ⟨hpeq, htop, hf, t, ht, hk⟩ := h
    have hstep : s.deliverNext =
        bottomPauseCallback { s with now := s.now + (t.due - s.now), timers := [] } := by
      have h1 : s.deliverNext =
          (s.step (Event.tick (t.due - s.now))).step (Event.timer t.id) := by
        simp [deliverNext, hf, ht]
      rw [h1]
      have h2 : (s.step (Event.tick (t.due - s.now))).timers = [t] := ht
      rw [step_timer_single h2 (by show t.due ≤ s.now + (t.due - s.now); omega)]
      simp [fire, hk, step]
    have hmod : (p + 1) % (M + 2) = 0 := by rw [hpeq]; exact Nat.mod_self _
    rw [hstep, hmod]
    exact ⟨hmax, hrun, hp, hspeed, Or.inl ⟨Nat.zero_le _, rfl, ⟨s.nextFrame, by
      show s.frames ++ _ = _; rw [hf]; rfl⟩, rfl⟩⟩

theorem loopAt_deliver {M : Nat} (k : Nat) {s : AutoScroller} {p : Nat} (h : LoopAt M s p) :
    LoopAt M (deliver k s) ((p + k) % (M + 2)) := by
  induction k generalizing s p with
  | zero =>
    have hp : p < M + 2 := by
      obtain ⟨_, _, _, _, h | h⟩ := h
      · omega
      · omega
    simpa [deliver, Nat.mod_eq_of_lt hp] using h
  | succ k ih =>
    have := ih (loopAt_deliverNext h)
    have hmod : ((p + 1) % (M + 2) + k) % (M + 2) = (p + (k + 1)) % (M + 2) := by
      rw [Nat.add_mod, Nat.mod_mod, ← Nat.add_mod]
      congr 1
      omega
    rw [hmod] at this
    exact this

theorem quiet_step {s : AutoScroller} (hl : s.listening = false) (ht : s.timers = [])
    (hf : s.frames = []) (e : Event) :
    (s.step e).listening = false ∧ (s.step e).timers = [] ∧ (s.step e).frames = [] ∧
    (s.step e).isAutoScrolling = s.isAutoScrolling ∧
    (s.step e).indicatorActive = s.indicatorActive ∧
    (s.step e).scrollTop = manualScrollTop s.scrollTop [e] := by
  cases e <;> simp [step, hl, ht, hf, manualScrollTop]

theorem manualScrollTop_cons (top : Nat) (e : Event) (es : List Event) :
    manualScrollTop top (e :: es) = manualScrollTop (manualScrollTop top [e]) es := by
  cases e <;> rfl

theorem quiet_run {s : AutoScroller} (hl : s.listening = false) (ht : s.timers = [])
    (hf : s.frames = []) (es : List Event) :
    (s.run es).timers = [] ∧ (s.run es).frames = [] ∧
    (s.run es).isAutoScrolling = s.isAutoScrolling ∧
    (s.run es).indicatorActive = s.indicatorActive ∧
    (s.run es).scrollTop = manualScrollTop s.scrollTop es := by
  induction es generalizing s with
  | nil => exact ⟨ht, hf, rfl, rfl, rfl⟩
  | cons e es ih =>
    obtain ⟨h1, h2, h3, h4, h5, h6⟩ := quiet_step hl ht hf e
    obtain ⟨i1, i2, i3, i4, i5⟩ := ih h1 h2 h3
    refine ⟨i1, i2, i3.trans h4, i4.trans h5, ?_⟩
    rw [manualScrollTop_cons, ← h6]
    exact i5

end AutoScroller

namespace MatrixRain

theorem still_step (rand : Nat → ℚ) {m : MatrixRain} (hl : m.resizeListener = false)
    (hf : m.framePending = false) (e : MatrixEvent) :
    (step rand m e).resizeListener = false ∧ (step rand m e).framePending = false ∧
    (step rand m e).columns = m.columns ∧ (step rand m e).ops = m.ops := by
  cases e <;> simp [step, hl, hf]

theorem still_run (rand : Nat → ℚ) {m : MatrixRain} (hl : m.resizeListener = false)
    (hf : m.framePending = false) (es : List MatrixEvent) :
    (run rand m es).columns = m.columns ∧ (run rand m es).ops = m.ops := by
  induction es generalizing m with
  | nil => exact ⟨rfl, rfl⟩
  | cons e es ih =>
    obtain ⟨h1, h2, h3, h4⟩ := still_step rand hl hf e
    obtain ⟨i1, i2⟩ := ih h1 h2
    exact ⟨i1.trans h3, i2.trans h4⟩

end MatrixRain

/-! ## Statements about the auto-scroll flags and loops -/

open AutoScroller

/-- C10, as the code behaves: in every state reached from the constructed
controller by any sequence of events (start-up callback, pause-triggering
events, idle-resume callbacks, Escape toggles, scroll-loop callbacks), the flags
`isAutoScrolling` and `isPaused` are not both true. -/
theorem flags_never_both_true (reducedMotion : Bool) (now top sh ch : Nat) (ind : Bool)
    (es : List Event) :
    ¬ (((new reducedMotion now top sh ch ind).run es).isAutoScrolling = true ∧
       ((new reducedMotion now top sh ch ind).run es).isPaused = true) :=
  (inv_run (inv_new reducedMotion now top sh ch ind) es).flags

/-- C10, refuted as stated: there is no construction and no finite sequence of
events after which `isAutoScrolling` and `isPaused` are both true. -/
theorem no_run_sets_both_flags :
    ¬ ∃ (reducedMotion : Bool) (now top sh ch : Nat) (ind : Bool) (es : List Event),
      ((new reducedMotion now top sh ch ind).run es).isAutoScrolling = true ∧
      ((new reducedMotion now top sh ch ind).run es).isPaused = true := by
  rintro ⟨reducedMotion, now, top, sh, ch, ind, es, h⟩
  exact (inv_run (inv_new reducedMotion now top sh ch ind) es).flags h

/-- C3, failing run: the controller is built at time 0 on a container with
3 px to scroll; Escape is pressed, the first frame is delivered, and at 3000 ms
the start-up callback runs.  Two animation-frame callbacks are then pending
while the controller is running, each of them steps the container and
re-requests itself, so two scroll loops are live. -/
theorem two_scroll_loops_after_escape_and_startup :
    ((new false 0 0 10 7 false).run
        [Event.keydown "Escape", Event.frame 1, Event.tick 3000, Event.timer 1]).frames = [2, 3] ∧
    ((new false 0 0 10 7 false).run
        [Event.keydown "Escape", Event.frame 1, Event.tick 3000, Event.timer 1]).isAutoScrolling
      = true ∧
    ((new false 0 0 10 7 false).run
        [Event.keydown "Escape", Event.frame 1, Event.tick 3000, Event.timer 1]).isPaused
      = false ∧
    ((new false 0 0 10 7 false).run
        [Event.keydown "Escape", Event.frame 1, Event.tick 3000, Event.timer 1]).scrollTop = 1 ∧
    ((new false 0 0 10 7 false).run
        [Event.keydown "Escape", Event.frame 1, Event.tick 3000, Event.timer 1,
         Event.frame 2]).scrollTop = 2 ∧
    ((new false 0 0 10 7 false).run
        [Event.keydown "Escape", Event.frame 1, Event.tick 3000, Event.timer 1,
         Event.frame 2, Event.frame 3]).scrollTop = 3 ∧
    ((new false 0 0 10 7 false).run
        [Event.keydown "Escape", Event.frame 1, Event.tick 3000, Event.timer 1,
         Event.frame 2, Event.frame 3]).frames = [4, 5] := by
  decide

/-- C4, as the code behaves: take any state reached from the constructed
controller (reduced motion off) and any idle-resume check pending in it, set at
time `t`.  No document mousemove has been recorded after `t`.  Through every
further run of events other than pointer-leave, document mousemove and the
delivery of the check itself (so through pointer-enter, touchstart, wheel,
scroll and Escape) the check stays pending and `lastMouseMove` stays at or
before `t`; a delivery before `t + 2000` does nothing, and a delivery from
`t + 2000` on resumes scrolling.  Further, after a pointer-enter in a state
with no idle-resume check pending, followed by no input, the controller is
paused at every later time. -/
theorem idle_check_depends_on_mouse_move_only (now top sh ch : Nat) (ind : Bool)
    (es : List Event) :
    (∀ t ∈ ((new false now top sh ch ind).run es).timers, t.kind = TimerKind.idleResume →
      t.due = t.setAt + 2000 ∧
      ((new false now top sh ch ind).run es).lastMouseMove ≤ t.setAt ∧
      ∀ fs : List Event, (∀ e ∈ fs, e.reschedules = false) → Event.timer t.id ∉ fs →
        t ∈ (((new false now top sh ch ind).run es).run fs).timers ∧
        (((new false now top sh ch ind).run es).run fs).lastMouseMove ≤ t.setAt ∧
        ((((new false now top sh ch ind).run es).run fs).now < t.due →
          (((new false now top sh ch ind).run es).run fs).step (Event.timer t.id) =
            ((new false now top sh ch ind).run es).run fs) ∧
        (t.due ≤ (((new false now top sh ch ind).run es).run fs).now →
          ((((new false now top sh ch ind).run es).run fs).step
              (Event.timer t.id)).isPaused = false ∧
          ((((new false now top sh ch ind).run es).run fs).step
              (Event.timer t.id)).isAutoScrolling = true)) ∧
    ((∀ t ∈ ((new false now top sh ch ind).run es).timers, t.kind ≠ TimerKind.idleResume) →
      ∀ fs : List Event, (∀ e ∈ fs, e.isInput = false) →
        ((((new false now top sh ch ind).run es).step Event.mouseenter).run fs).isPaused = true ∧
        ((((new false now top sh ch ind).run es).step Event.mouseenter).run fs).isAutoScrolling
          = false) := by
  have hinv := inv_run (inv_new false now top sh ch ind) es
  have hlisten : ((new false now top sh ch ind).run es).listening = true := by
    rw [run_listening]; rfl
  generalize (new false now top sh ch ind).run es = s at hinv hlisten
  constructor
  · intro t ht hk
    obtain ⟨_, hmove, hdelay⟩ := hinv.idle t ht hk
    refine ⟨by unfold Timer.due; rw [hdelay]; rfl, hmove, ?_⟩
    intro fs hfs hnot
    have ht' : t ∈ (s.run fs).timers := mem_timers_run ht fs hfs hnot
    have hinv' : Inv (s.run fs) := inv_run hinv fs
    refine ⟨ht', (hinv'.idle t ht' hk).2.1, ?_, ?_⟩
    · intro hlt
      rw [step_timer_of_mem hinv' ht', if_neg (Nat.not_le.mpr hlt)]
    · intro hdue
      have := idle_fire_resumes hinv' ht' hk hdue
      exact ⟨this.1, this.2.1⟩
  · intro hno fs hfs
    apply paused_run _ fs hfs
    simp only [step, hlisten, if_true]
    obtain ⟨fr, e⟩ := pause_frame_only s
    rw [e]
    exact ⟨rfl, rfl, hno⟩

/-- C4, witness: built at time 0, pointer-leave at once sets check 2.  Inside
its window come a touchstart, a wheel event, a manual scroll and a
pointer-enter; the check is still pending at 2000 ms and its delivery resumes
scrolling.  And a pointer-enter at construction time, with no check pending,
leaves the controller paused 5000 ms later. -/
theorem idle_check_depends_on_mouse_move_only_witness :
    ({ id := 2, kind := TimerKind.idleResume, setAt := 0, delay := 2000 } : Timer) ∈
      (((new false 0 0 10 7 false).run [Event.mouseleave]).run
        [Event.tick 1000, Event.touchstart, Event.wheel, Event.scroll 2, Event.mouseenter,
         Event.tick 1000]).timers ∧
    ((((new false 0 0 10 7 false).run [Event.mouseleave]).run
        [Event.tick 1000, Event.touchstart, Event.wheel, Event.scroll 2, Event.mouseenter,
         Event.tick 1000]).step (Event.timer 2)).isPaused = false ∧
    ((((new false 0 0 10 7 false).run [Event.mouseleave]).run
        [Event.tick 1000, Event.touchstart, Event.wheel, Event.scroll 2, Event.mouseenter,
         Event.tick 1000]).step (Event.timer 2)).isAutoScrolling = true ∧
    ((((new false 0 0 10 7 false).run []).step Event.mouseenter).run
        [Event.tick 3000, Event.timer 1, Event.tick 2000]).isPaused = true :=
  ⟨(((idle_check_depends_on_mouse_move_only 0 0 10 7 false [Event.mouseleave]).1
      { id := 2, kind := TimerKind.idleResume, setAt := 0, delay := 2000 }
      (by decide) rfl).2.2
      [Event.tick 1000, Event.touchstart, Event.wheel, Event.scroll 2, Event.mouseenter,
       Event.tick 1000] (by decide) (by decide)).1,
   ((((idle_check_depends_on_mouse_move_only 0 0 10 7 false [Event.mouseleave]).1
      { id := 2, kind := TimerKind.idleResume, setAt := 0, delay := 2000 }
      (by decide) rfl).2.2
      [Event.tick 1000, Event.touchstart, Event.wheel, Event.scroll 2, Event.mouseenter,
       Event.tick 1000] (by decide) (by decide)).2.2.2 (by decide)).1,
   ((((idle_check_depends_on_mouse_move_only 0 0 10 7 false [Event.mouseleave]).1
      { id := 2, kind := TimerKind.idleResume, setAt := 0, delay := 2000 }
      (by decide) rfl).2.2
      [Event.tick 1000, Event.touchstart, Event.wheel, Event.scroll 2, Event.mouseenter,
       Event.tick 1000] (by decide) (by decide)).2.2.2 (by decide)).2,
   ((idle_check_depends_on_mouse_move_only 0 0 10 7 false []).2 (by decide)
      [Event.tick 3000, Event.timer 1, Event.tick 2000] (by decide)).1⟩

/-- C4, refuted as stated.  First run: pointer-leave at time 0 sets the check
(handle 2, due at 2000), a touchstart at 1000 pauses the controller inside the
window, and the check delivered at 2000 resumes scrolling all the same.  Second
run: a mousemove at 0 sets the check, the pointer enters at 500 and nothing else
is input, yet the controller is no longer paused after the check at 2000. -/
theorem idle_check_resumes_despite_interaction :
    ((new false 0 0 10 7 false).run
        [Event.mouseleave, Event.tick 1000, Event.touchstart]).isPaused = true ∧
    ((new false 0 0 10 7 false).run
        [Event.mouseleave, Event.tick 1000, Event.touchstart]).timers =
      [ { id := 1, kind := TimerKind.startup, setAt := 0, delay := 3000 },
        { id := 2, kind := TimerKind.idleResume, setAt := 0, delay := 2000 } ] ∧
    ((new false 0 0 10 7 false).run
        [Event.mouseleave, Event.tick 1000, Event.touchstart, Event.tick 1000,
         Event.timer 2]).isPaused = false ∧
    ((new false 0 0 10 7 false).run
        [Event.mouseleave, Event.tick 1000, Event.touchstart, Event.tick 1000,
         Event.timer 2]).isAutoScrolling = true ∧
    ¬ (∀ es fs : List Event, (∀ e ∈ fs, e.isInput = false) →
        ((((new false 0 0 10 7 false).run es).step Event.mouseenter).run fs).isPaused = true) := by
  refine ⟨by decide, by decide, by decide, by decide, ?_⟩
  intro h
  have := h [Event.mousemove, Event.tick 500] [Event.tick 1500, Event.timer 2] (by decide)
  revert this
  decide

/-- C5: from any state reached with reduced motion off, let the pointer enter,
let anything happen, and let the pointer leave at time `t`, which sets the
idle-resume check `h`.  With no input afterwards and until `h` is delivered, a
delivery before `t + 2000` does nothing, and a delivery from `t + 2000` on
leaves the controller scrolling: `isPaused` false, `isAutoScrolling` true, the
indicator active, and an animation-frame step requested. -/
theorem resumes_after_enter_leave_and_idle (now top sh ch : Nat) (ind : Bool)
    (es es1 es2 : List Event) (s2 s3 : AutoScroller)
    (hs2 : s2 = ((((new false now top sh ch ind).run es).step Event.mouseenter).run es1).step
      Event.mouseleave)
    (hs3 : s3 = s2.run es2)
    (hquiet : ∀ e ∈ es2, e.isInput = false) :
    ∃ h, s2.idleTimer = some h ∧
      (Event.timer h ∉ es2 →
        (s3.now < s2.now + 2000 → s3.step (Event.timer h) = s3) ∧
        (s2.now + 2000 ≤ s3.now →
          (s3.step (Event.timer h)).isPaused = false ∧
          (s3.step (Event.timer h)).isAutoScrolling = true ∧
          (s3.step (Event.timer h)).indicatorActive = true ∧
          ∃ f, (s3.step (Event.timer h)).animationFrame = some f ∧
            f ∈ (s3.step (Event.timer h)).frames)) := by
  have hinv1 : Inv ((((new false now top sh ch ind).run es).step Event.mouseenter).run es1) :=
    inv_run (inv_step (inv_run (inv_new false now top sh ch ind) es) _) es1
  have hlisten : ((((new false now top sh ch ind).run es).step Event.mouseenter).run
      es1).listening = true := by
    rw [run_listening, step_listening, run_listening]; rfl
  generalize (((new false now top sh ch ind).run es).step Event.mouseenter).run es1 = s1
    at hs2 hinv1 hlisten
  have hs2' : s2 = s1.scheduleResume := by
    rw [hs2]
    simp only [step, hlisten, if_true]
  have hinv2 : Inv s2 := by rw [hs2']; exact inv_scheduleResume hinv1
  obtain ⟨t, ht, hid, hk, hset, hdelay, hnow⟩ := scheduleResume_pending s1
  rw [← hs2'] at ht hid hnow
  refine ⟨t.id, hid, fun hnot => ?_⟩
  have ht3 : t ∈ s3.timers := by
    rw [hs3]
    exact mem_timers_run ht es2 (fun e he => reschedules_of_not_input (hquiet e he)) hnot
  have hinv3 : Inv s3 := by rw [hs3]; exact inv_run hinv2 es2
  have hdue : t.due = s2.now + 2000 := by
    unfold Timer.due
    rw [hset, hdelay, hnow]
    rfl
  constructor
  · intro hlt
    rw [step_timer_of_mem hinv3 ht3, if_neg (by rw [hdue]; exact Nat.not_le.mpr hlt)]
  · intro hge
    exact idle_fire_resumes hinv3 ht3 hk (by rw [hdue]; exact hge)

/-- C5, witness: built at time 0, the pointer enters, leaves 100 ms later
(setting check 2), and 2000 ms pass without input; delivering the check leaves
the controller scrolling. -/
theorem resumes_after_enter_leave_and_idle_witness :
    (((((((new false 0 0 10 7 false).run []).step Event.mouseenter).run
        [Event.tick 100]).step Event.mouseleave).run [Event.tick 2000]).step
          (Event.timer 2)).isPaused = false ∧
    (((((((new false 0 0 10 7 false).run []).step Event.mouseenter).run
        [Event.tick 100]).step Event.mouseleave).run [Event.tick 2000]).step
          (Event.timer 2)).isAutoScrolling = true := by
  obtain ⟨h, hh, hrest⟩ :=
    resumes_after_enter_leave_and_idle 0 0 10 7 false [] [Event.tick 100] [Event.tick 2000] _ _
      rfl rfl (by decide)
  have h2 : h = 2 := (Option.some.inj hh).symm
  subst h2
  exact ⟨((hrest (by decide)).2 (by decide)).1, ((hrest (by decide)).2 (by decide)).2.1⟩

/-- C7: with the reduced-motion preference set at construction, whatever events
follow, `AutoScroller` keeps `isAutoScrolling` false, leaves the container at
the offset the user's own scrolling gave it, leaves the indicator's class as it
was and has no timer or animation frame pending; `MatrixRain` keeps an empty
column array and makes no call on the drawing context; `ParticleSystem` creates
no particle and appends nothing to its container. -/
theorem reduced_motion_keeps_everything_still (rand : Nat → ℚ)
    (now top sh ch : Nat) (ind : Bool) (es : List Event)
    (canvasWidth canvasHeight innerWidth innerHeight : Nat) (ms : List MatrixEvent)
    (children : List Particle) :
    ((AutoScroller.new true now top sh ch ind).run es).isAutoScrolling = false ∧
    ((AutoScroller.new true now top sh ch ind).run es).scrollTop = manualScrollTop top es ∧
    ((AutoScroller.new true now top sh ch ind).run es).indicatorActive = ind ∧
    ((AutoScroller.new true now top sh ch ind).run es).timers = [] ∧
    ((AutoScroller.new true now top sh ch ind).run es).frames = [] ∧
    ((MatrixRain.new rand true canvasWidth canvasHeight innerWidth innerHeight).run rand
        ms).columns = [] ∧
    ((MatrixRain.new rand true canvasWidth canvasHeight innerWidth innerHeight).run rand
        ms).ops = [] ∧
    (ParticleSystem.new rand true children).particles = [] ∧
    (ParticleSystem.new rand true children).containerChildren = children := by
  obtain ⟨h1, h2, h3, h4, h5⟩ :=
    AutoScroller.quiet_run (s := AutoScroller.new true now top sh ch ind) rfl rfl rfl es
  obtain ⟨m1, m2⟩ :=
    MatrixRain.still_run rand
      (m := MatrixRain.new rand true canvasWidth canvasHeight innerWidth innerHeight) rfl rfl ms
  exact ⟨h3, h5, h4, h1, h2, m1, m2, rfl, rfl⟩

/-- C8, failing run: on a container with 3 px to scroll, at offset 0, the
controller is running and not paused once Escape has been pressed at 2990 ms,
and it is never paused afterwards.  The start-up callback at 3000 ms starts a
second scroll loop.  The first 2000 ms timer puts the offset back to 0, the
next frame moves it to 1, and the second loop's timer then puts it back to 0:
the offsets go 0, 1, 0 instead of 0, 1, 2, 3. -/
theorem second_loop_resets_offset_mid_scroll :
    ((new false 0 0 10 7 false).run (twoLoopRun.take 2)).isAutoScrolling = true ∧
    ((new false 0 0 10 7 false).run (twoLoopRun.take 2)).scrollTop = 0 ∧
    ((new false 0 0 10 7 false).run (twoLoopRun.take 2)).maxScroll = 3 ∧
    (List.range 18).all
      (fun k => !((new false 0 0 10 7 false).run (twoLoopRun.take k)).isPaused) = true ∧
    ((new false 0 0 10 7 false).run (twoLoopRun.take 4)).frames = [1, 2] ∧
    ((new false 0 0 10 7 false).run (twoLoopRun.take 12)).scrollTop = 3 ∧
    ((new false 0 0 10 7 false).run (twoLoopRun.take 14)).scrollTop = 0 ∧
    ((new false 0 0 10 7 false).run (twoLoopRun.take 16)).scrollTop = 1 ∧
    ((new false 0 0 10 7 false).run (twoLoopRun.take 17)).scrollTop = 0 ∧
    ((new false 0 0 10 7 false).run (twoLoopRun.take 17)).isAutoScrolling = true := by
  decide

/-- Single scroll loop: a running, unpaused controller with one animation frame `f` pending, no
timer pending, speed `CONFIG.autoScrollSpeed` and a container with `M`
pixels to scroll, at an offset in `[0, M]`.  Below `M` the frame adds exactly 1
to the offset and requests the next frame.  At `M` the frame leaves the offset
alone and sets the 2000 ms timer, which does nothing before 2000 ms and from
then on puts the offset back to 0 and requests a frame.  Delivering callbacks
one after the other, the offset after `k` of them is
`min ((offset + k) mod (M + 2)) M`, which never exceeds `M`. -/
theorem scroll_loop_offsets_cycle (s : AutoScroller) (M f : Nat)
    (hmax : s.maxScroll = (M : Int))
    (hrun : s.isAutoScrolling = true) (hp : s.isPaused = false)
    (hspeed : s.scrollSpeed = CONFIG.autoScrollSpeed)
    (hf : s.frames = [f]) (ht : s.timers = []) (htop : s.scrollTop ≤ M) :
    (s.scrollTop < M →
      (s.step (Event.frame f)).scrollTop = s.scrollTop + 1 ∧
      (s.step (Event.frame f)).frames = [s.nextFrame]) ∧
    (s.scrollTop = M →
      (s.step (Event.frame f)).scrollTop = M ∧
      (s.step (Event.frame f)).frames = [] ∧
      (s.step (Event.frame f)).timers =
        [{ id := s.nextTimer, kind := TimerKind.bottomPause, setAt := s.now, delay := 2000 }] ∧
      (∀ d, d < 2000 →
        ((s.step (Event.frame f)).step (Event.tick d)).step (Event.timer s.nextTimer) =
          (s.step (Event.frame f)).step (Event.tick d)) ∧
      (∀ d, 2000 ≤ d →
        (((s.step (Event.frame f)).step (Event.tick d)).step
            (Event.timer s.nextTimer)).scrollTop = 0 ∧
        (((s.step (Event.frame f)).step (Event.tick d)).step
            (Event.timer s.nextTimer)).frames = [s.nextFrame])) ∧
    (∀ k, (deliver k s).scrollTop = min ((s.scrollTop + k) % (M + 2)) M) ∧
    (∀ k, (deliver k s).scrollTop ≤ M) := by
  have hloop : LoopAt M s s.scrollTop :=
    ⟨hmax, hrun, hp, hspeed, Or.inl ⟨htop, rfl, ⟨f, hf⟩, ht⟩⟩
  have hcycle : ∀ k, (deliver k s).scrollTop = min ((s.scrollTop + k) % (M + 2)) M :=
    fun k => loopAt_scrollTop (loopAt_deliver k hloop)
  refine ⟨?_, ?_, hcycle, fun k => by rw [hcycle k]; exact Nat.min_le_right _ _⟩
  · intro hlt
    have hcond : ((s.scrollTop : Int) < s.maxScroll) := by rw [hmax]; exact_mod_cast hlt
    rw [step_frame_single hf, scroll_advance (s := { s with frames := [] }) hrun hp hcond]
    exact ⟨by show s.scrollTop + s.scrollSpeed = _; rw [hspeed]; rfl, rfl⟩
  · intro heq
    have hcond : ¬ ((s.scrollTop : Int) < s.maxScroll) := by rw [hmax, heq]; simp
    rw [step_frame_single hf, scroll_bottom (s := { s with frames := [] }) hrun hp hcond]
    refine ⟨heq, rfl, by show s.timers ++ _ = _; rw [ht]; rfl, ?_, ?_⟩
    · intro d hd
      exact step_timer_single_early
        (t := { id := s.nextTimer, kind := TimerKind.bottomPause, setAt := s.now, delay := 2000 })
        (by show s.timers ++ _ = _; rw [ht]; rfl)
        (by show s.now + d < s.now + 2000; omega)
    · intro d hd
      rw [step_timer_single
        (t := { id := s.nextTimer, kind := TimerKind.bottomPause, setAt := s.now, delay := 2000 })
        (by show s.timers ++ _ = _; rw [ht]; rfl)
        (by show s.now + 2000 ≤ s.now + d; omega)]
      exact ⟨rfl, rfl⟩

/-- Single scroll loop, example: the controller built at time 0 over a container
with 3 px to scroll, once the start-up callback has run at 3000 ms. -/
theorem scroll_loop_offsets_cycle_witness :
    (deliver 4 ((new false 0 0 10 7 false).run [Event.tick 3000, Event.timer 1])).scrollTop
      = min ((0 + 4) % (3 + 2)) 3 ∧
    (deliver 5 ((new false 0 0 10 7 false).run [Event.tick 3000, Event.timer 1])).scrollTop
      = min ((0 + 5) % (3 + 2)) 3 :=
  ⟨(scroll_loop_offsets_cycle
      ((new false 0 0 10 7 false).run [Event.tick 3000, Event.timer 1]) 3 1
      (by decide) (by decide) (by decide) (by decide) (by decide) (by decide)
      (by decide)).2.2.1 4,
   (scroll_loop_offsets_cycle
      ((new false 0 0 10 7 false).run [Event.tick 3000, Event.timer 1]) 3 1
      (by decide) (by decide) (by decide) (by decide) (by decide) (by decide)
      (by decide)).2.2.1 5⟩

/-! ## Email pattern -/

theorem matchItems_nil (cs : List Char) : matchItems [] cs = true ↔ cs = [] := by
  cases cs <;> simp [matchItems]

theorem matchItems_one (a : Atom) (rest : List Item) (cs : List Char) :
    matchItems (Item.one a :: rest) cs = true ↔
      ∃ c ys, cs = c :: ys ∧ a.test c = true ∧ matchItems rest ys = true := by
  cases cs with
  | nil => simp [matchItems]
  | cons c cs =>
    simp only [matchItems, Bool.and_eq_true]
    constructor
    · rintro ⟨h1, h2⟩
      exact ⟨c, cs, rfl, h1, h2⟩
    · rintro ⟨x, ys, hx, h1, h2⟩
      rw [List.cons.injEq] at hx
      obtain ⟨rfl, rfl⟩ := hx
      exact ⟨h1, h2⟩

theorem matchItems_plus (a : Atom) (rest : List Item) (cs : List Char) :
    matchItems (Item.plus a :: rest) cs = true ↔
      ∃ xs ys, xs ≠ [] ∧ cs = xs ++ ys ∧ (∀ c ∈ xs, a.test c = true) ∧
        matchItems rest ys = true := by
  induction cs with
  | nil =>
    simp only [matchItems, Bool.false_eq_true, false_iff]
    rintro ⟨xs, ys, hne, happ, _⟩
    exact hne (List.append_eq_nil.mp happ.symm).1
  | cons c cs ih =>
    simp only [matchItems, Bool.and_eq_true, Bool.or_eq_true]
    constructor
    · rintro ⟨hc, h | h⟩
      · obtain ⟨xs, ys, _, happ, hall, hrest⟩ := ih.mp h
        refine ⟨c :: xs, ys, List.cons_ne_nil _ _, by rw [happ]; rfl, ?_, hrest⟩
        intro x hx
        rcases List.mem_cons.mp hx with rfl | hx
        · exact hc
        · exact hall x hx
      · refine ⟨[c], cs, List.cons_ne_nil _ _, rfl, ?_, h⟩
        intro x hx
        rw [List.mem_singleton.mp hx]
        exact hc
    · rintro ⟨xs, ys, hne, happ, hall, hrest⟩
      cases xs with
      | nil => exact absurd rfl hne
      | cons x xs =>
        rw [List.cons_append, List.cons.injEq] at happ
        obtain ⟨rfl, rfl⟩ := happ
        refine ⟨hall c (List.mem_cons_self _ _), ?_⟩
        cases xs with
        | nil => exact Or.inr hrest
        | cons y xs =>
          exact Or.inl (ih.mpr ⟨y :: xs, ys, List.cons_ne_nil _ _, rfl,
            fun z hz => hall z (List.mem_cons_of_mem _ hz), hrest⟩)

theorem notSpaceNorAt_test (c : Char) :
    (Atom.notSpaceNor ['@']).test c = true ↔ isJsWhitespace c = false ∧ c ≠ '@' := by
  simp [Atom.test]

theorem lit_test (x c : Char) : (Atom.lit x).test c = true ↔ c = x := by
  simp [Atom.test]

theorem isValidEmail_iff_shape (s : String) :
    isValidEmail s = true ↔
      ∃ l a b, s.toList = l ++ '@' :: (a ++ '.' :: b) ∧ l ≠ [] ∧ a ≠ [] ∧ b ≠ [] ∧
        (∀ c ∈ l, isJsWhitespace c = false ∧ c ≠ '@') ∧
        (∀ c ∈ a, isJsWhitespace c = false ∧ c ≠ '@') ∧
        (∀ c ∈ b, isJsWhitespace c = false ∧ c ≠ '@') := by
  unfold isValidEmail emailRegex
  simp only [matchItems_plus, matchItems_one, matchItems_nil, notSpaceNorAt_test, lit_test]
  constructor
  · rintro ⟨l, r1, hl, hs, hlall, c1, r2, hr1, hc1, a, r3, ha, hr2, haall, c2, r4, hr3, hc2,
      b, r5, hb, hr4, hball, hr5⟩
    subst hr5 hc1 hc2
    refine ⟨l, a, b, ?_, hl, ha, hb, hlall, haall, hball⟩
    rw [hs, hr1, hr2, hr3, hr4, List.append_nil]
  · rintro ⟨l, a, b, hs, hl, ha, hb, hlall, haall, hball⟩
    exact ⟨l, '@' :: (a ++ '.' :: b), hl, hs, hlall, '@', a ++ '.' :: b, rfl, rfl,
      a, '.' :: b, ha, rfl, haall, '.', b, rfl, rfl, b, [], hb, (List.append_nil b).symm,
      hball, rfl⟩

theorem count_at_eq_zero {l : List Char} (h : ∀ c ∈ l, isJsWhitespace c = false ∧ c ≠ '@') :
    l.count '@' = 0 :=
  List.count_eq_zero.mpr (fun hmem => (h '@' hmem).2 rfl)

/-- C2: `isValidEmail` accepts exactly the strings with no whitespace, exactly
one `@`, something before it, and after it a `.` with something on either
side; it rejects `bad-email` and accepts `a@b.co`. -/
theorem isValidEmail_iff_spec (s : String) :
    (isValidEmail s = true ↔ SpecEmail s) ∧
    isValidEmail "bad-email" = false ∧ isValidEmail "a@b.co" = true := by
  refine ⟨?_, by decide, by decide⟩
  rw [isValidEmail_iff_shape]
  unfold SpecEmail
  constructor
  · rintro ⟨l, a, b, hs, hl, ha, hb, hlall, haall, hball⟩
    refine ⟨?_, ?_, l, a ++ '.' :: b, hs, hl, a, b, rfl, ha, hb⟩
    · intro c hc
      rw [hs] at hc
      simp only [List.mem_append, List.mem_cons] at hc
      rcases hc with hc | rfl | hc | rfl | hc
      · exact (hlall c hc).1
      · decide
      · exact (haall c hc).1
      · decide
      · exact (hball c hc).1
    · rw [hs]
      simp [List.count_append, List.count_cons, count_at_eq_zero hlall, count_at_eq_zero haall,
        count_at_eq_zero hball]
  · rintro ⟨hws, hcount, l, d, hs, hl, a, b, hd, ha, hb⟩
    subst hd
    rw [hs] at hcount hws
    simp only [List.count_append, List.count_cons, beq_self_eq_true, if_true] at hcount
    have hne : ∀ (x : List Char), x.count '@' = 0 → (∀ c ∈ x, c ∈ l ++ '@' :: (a ++ '.' :: b)) →
        ∀ c ∈ x, isJsWhitespace c = false ∧ c ≠ '@' := by
      intro x hx hsub c hc
      refine ⟨hws c (hsub c hc), ?_⟩
      rintro rfl
      exact List.count_eq_zero.mp hx hc
    refine ⟨l, a, b, hs, hl, ha, hb, hne l (by omega) ?_, hne a (by omega) ?_,
      hne b (by omega) ?_⟩
    · intro c hc; simp [hc]
    · intro c hc; simp [hc]
    · intro c hc; simp [hc]

/-! ## Contact form -/

/-- C1: the submit listener first prevents the default action and then: with
an empty field it shows the single status "Error: All fields are required."
and stops; otherwise with an email that `isValidEmail` rejects it shows the
single status "Error: Invalid email format." and stops; otherwise it shows
"Processing..." as info, waits 1500 ms, shows a success status whose text
contains the name and the email, and resets the form. -/
theorem submitHandler_outcome (name email message : String) :
    ((name = "" ∨ email = "" ∨ message = "") →
      submitHandler name email message =
        [Effect.preventDefault,
         Effect.showFormResponse "Error: All fields are required." "error"]) ∧
    (name ≠ "" → email ≠ "" → message ≠ "" → isValidEmail email = false →
      submitHandler name email message =
        [Effect.preventDefault,
         Effect.showFormResponse "Error: Invalid email format." "error"]) ∧
    (name ≠ "" → email ≠ "" → message ≠ "" → isValidEmail email = true →
      ∃ text,
        submitHandler name email message =
          [Effect.preventDefault,
           Effect.showFormResponse "Processing..." "info",
           Effect.delay 1500,
           Effect.showFormResponse text "success",
           Effect.reset] ∧
        (∃ before after, text = before ++ name ++ after) ∧
        (∃ before after, text = before ++ email ++ after)) := by
  refine ⟨?_, ?_, ?_⟩
  · intro h
    unfold submitHandler
    rw [if_pos (by simpa [or_assoc] using h)]
  · intro h1 h2 h3 hv
    unfold submitHandler
    rw [if_neg (by simp [h1, h2, h3]), if_pos (by simp [hv])]
  · intro h1 h2 h3 hv
    refine ⟨successMessage name email, ?_, ?_, ?_⟩
    · unfold submitHandler
      rw [if_neg (by simp [h1, h2, h3]), if_neg (by simp [hv])]
    · exact ⟨"Message queued successfully. Thank you, ",
        "! I\x27ll respond to " ++ email ++ " soon.", by
          simp [successMessage, String.append_assoc]⟩
    · exact ⟨"Message queued successfully. Thank you, " ++ name ++ "! I\x27ll respond to ",
        " soon.", rfl⟩

/-- C1, witness: an empty message, the address `bad-email`, and the submission
`Ada`, `ada@example.com`, `hi`. -/
theorem submitHandler_outcome_witness :
    submitHandler "Ada" "ada@example.com" "" =
      [Effect.preventDefault,
       Effect.showFormResponse "Error: All fields are required." "error"] ∧
    submitHandler "Ada" "bad-email" "hi" =
      [Effect.preventDefault,
       Effect.showFormResponse "Error: Invalid email format." "error"] ∧
    ∃ text,
      submitHandler "Ada" "ada@example.com" "hi" =
        [Effect.preventDefault,
         Effect.showFormResponse "Processing..." "info",
         Effect.delay 1500,
         Effect.showFormResponse text "success",
         Effect.reset] ∧
      (∃ before after, text = before ++ "Ada" ++ after) ∧
      (∃ before after, text = before ++ "ada@example.com" ++ after) :=
  ⟨(submitHandler_outcome "Ada" "ada@example.com" "").1 (Or.inr (Or.inr rfl)),
   (submitHandler_outcome "Ada" "bad-email" "hi").2.1 (by decide) (by decide) (by decide)
      (by decide),
   (submitHandler_outcome "Ada" "ada@example.com" "hi").2.2 (by decide) (by decide) (by decide)
      (by decide)⟩

/-- C6, failing run: a success status is shown at time 0 and an error status at
4000 ms; at 5000 ms the auto-hide callback of the success status runs and hides
the panel, 1000 ms after the error status was shown and with its text still in
place, although `showFormResponse` has not been called again. -/
theorem error_status_hidden_by_stale_success_timer :
    (FormResponse.initial.run
      [FormEvent.showFormResponse "Message queued successfully." "success",
       FormEvent.tick 4000,
       FormEvent.showFormResponse "Error: All fields are required." "error"]).hidden = false ∧
    (FormResponse.initial.run
      [FormEvent.showFormResponse "Message queued successfully." "success",
       FormEvent.tick 4000,
       FormEvent.showFormResponse "Error: All fields are required." "error",
       FormEvent.tick 1000,
       FormEvent.timer 1]).hidden = true ∧
    (FormResponse.initial.run
      [FormEvent.showFormResponse "Message queued successfully." "success",
       FormEvent.tick 4000,
       FormEvent.showFormResponse "Error: All fields are required." "error",
       FormEvent.tick 1000,
       FormEvent.timer 1]).responseText = "Error: All fields are required." ∧
    (FormResponse.initial.run
      [FormEvent.showFormResponse "Message queued successfully." "success",
       FormEvent.tick 4000,
       FormEvent.showFormResponse "Error: All fields are required." "error",
       FormEvent.tick 1000,
       FormEvent.timer 1]).now = 5000 := by
  decide

/-! ## Mobile navigation -/

theorem toString_true_eq : toString true = "true" := rfl

theorem toString_false_eq : toString false = "false" := rfl

theorem false_ne_true_string : ("false" : String) ≠ "true" := by decide

/-- C9: from a closed panel (hidden, `aria-expanded` not "true") a click on the
toggle opens it, and a following Escape closes it and focuses the toggle; and
each listener keeps `aria-expanded` equal to "true" exactly when the panel is
shown. -/
theorem mobile_nav_toggle_escape (n : MobileNav) (e : NavEvent) :
    (n.hidden = true → n.ariaExpanded ≠ some "true" →
      (n.step NavEvent.toggleClick).ariaExpanded = some "true" ∧
      (n.step NavEvent.toggleClick).hidden = false ∧
      ((n.step NavEvent.toggleClick).step (NavEvent.keydown "Escape")).ariaExpanded
        = some "false" ∧
      ((n.step NavEvent.toggleClick).step (NavEvent.keydown "Escape")).hidden = true ∧
      ((n.step NavEvent.toggleClick).step (NavEvent.keydown "Escape")).toggleFocused = true) ∧
    (n.Agree → (n.step e).Agree) := by
  constructor
  · intro _ hne
    have hb : (n.ariaExpanded == some "true") = false := by simpa using hne
    simp [MobileNav.step, hb, toString_true_eq]
  · intro hag
    unfold MobileNav.Agree at *
    cases e with
    | toggleClick =>
      by_cases hx : n.ariaExpanded = some "true"
      · simp [MobileNav.step, hx, toString_false_eq, false_ne_true_string]
      · have hb : (n.ariaExpanded == some "true") = false := by simpa using hx
        simp [MobileNav.step, hb, toString_true_eq]
    | navLinkClick =>
      by_cases hh : n.hidden = true
      · simpa [MobileNav.step, hh] using hag
      · simp [MobileNav.step, hh]
    | keydown key =>
      by_cases hh : (key = "Escape" ∧ n.hidden = false)
      · simp [MobileNav.step, hh.1, hh.2]
      · have : (decide (key = "Escape") && !n.hidden) = false := by
          rw [Bool.and_eq_false_iff]
          by_cases hk : key = "Escape"
          · right; simpa using fun h => hh ⟨hk, h⟩
          · left; simpa using hk
        simp only [MobileNav.step, this]
        simpa using hag

/-- C9, witness: the panel as the page loads, closed and without the
attribute. -/
theorem mobile_nav_toggle_escape_witness :
    (({ ariaExpanded := none, hidden := true, toggleFocused := false } : MobileNav).step
        NavEvent.toggleClick).hidden = false ∧
    ((({ ariaExpanded := none, hidden := true, toggleFocused := false } : MobileNav).step
        NavEvent.toggleClick).step (NavEvent.keydown "Escape")).toggleFocused = true ∧
    (({ ariaExpanded := none, hidden := true, toggleFocused := false } : MobileNav).step
        NavEvent.navLinkClick).Agree :=
  ⟨((mobile_nav_toggle_escape { ariaExpanded := none, hidden := true, toggleFocused := false }
        NavEvent.navLinkClick).1 rfl (by decide)).2.1,
   ((mobile_nav_toggle_escape { ariaExpanded := none, hidden := true, toggleFocused := false }
        NavEvent.navLinkClick).1 rfl (by decide)).2.2.2.2,
   (mobile_nav_toggle_escape { ariaExpanded := none, hidden := true, toggleFocused := false }
        NavEvent.navLinkClick).2 (by simp [MobileNav.Agree])⟩

end Portafolio
